import Mathlib

/-
Verification of the usage-accounting monitor and allocator facade of
src/src/interface/allocator.cpp (oneDNN graph component).

The monitor state consists of five static unordered maps (allocator.cpp
lines 69-87).  Allocator identities, buffer addresses and thread ids are
opaque comparable tokens; we model each as a Nat.  The C++ unordered maps
are modelled as association lists with first-match lookup; std counterparts
are transcribed as follows:

  m.find(k) != m.end()   -> (alLookup m k).isSome
  m.at(k)                -> alLookup m k (none models the out_of_range throw)
  m[k] (operator[])      -> alGetD for the read, alSet for the write; a read
                            through operator[] also materialises the slot,
                            which we model with an explicit alSet
  m.emplace(k, v)        -> alEmplace (inserts only when the key is absent)
  m.erase(it)            -> alErase (removes the entry found for that key)

size_t arithmetic is modelled as Nat with explicit reduction modulo
W = 2 ^ 64 (addW, subW), matching unsigned wrap-around.
-/

set_option autoImplicit false

/-- Width of size_t arithmetic: all running totals wrap modulo this value. -/
def W : Nat := 2 ^ 64

/-- Wrapping size_t addition, as performed by the += updates on the totals. -/
def addW (a b : Nat) : Nat := (a + b) % W

/-- Wrapping size_t subtraction, as performed by the -= updates on the totals. -/
def subW (a b : Nat) : Nat := (a + (W - b % W)) % W

/-- First-match lookup in an association list; models unordered_map::find /
unordered_map::at (a none result models at throwing out_of_range). -/
def alLookup {V : Type} : List (Nat × V) → Nat → Option V
  | [], _ => none
  | (k2, v) :: rest, k => if k2 = k then some v else alLookup rest k

/-- Lookup with a default value; models the value read through operator[]
(absent keys read as a value-initialised entry). -/
def alGetD {V : Type} (l : List (Nat × V)) (k : Nat) (d : V) : V :=
  (alLookup l k).getD d

/-- Store a value under a key, replacing an existing binding; models the
write (and slot materialisation) performed through operator[]. -/
def alSet {V : Type} : List (Nat × V) → Nat → V → List (Nat × V)
  | [], k, v => [(k, v)]
  | (k2, v2) :: rest, k, v =>
      if k2 = k then (k2, v) :: rest else (k2, v2) :: alSet rest k v

/-- Remove the binding found for a key; models unordered_map::erase of the
iterator returned by find. -/
def alErase {V : Type} : List (Nat × V) → Nat → List (Nat × V)
  | [], _ => []
  | (k2, v2) :: rest, k => if k2 = k then rest else (k2, v2) :: alErase rest k

/-- Insert a binding only when the key is absent; models
unordered_map::emplace, which is a no-op on an existing key. -/
def alEmplace {V : Type} (l : List (Nat × V)) (k : Nat) (v : V) : List (Nat × V) :=
  match alLookup l k with
  | some _ => l
  | none => (k, v) :: l

/-- Lifetime classification of an allocation (allocator_lifetime in the
repository headers): persistent, temp, or the reserved output kind. -/
inductive allocator_lifetime where
  | persistent
  | temp
  | output
deriving DecidableEq

/-- Per-allocation record stored by the monitor: dnnl_graph_allocator::mem_info_t,
holding the size and the lifetime classification. -/
structure mem_info_t where
  size_ : Nat
  type_ : allocator_lifetime
deriving DecidableEq

/-- Payload of an allocation attribute: carries the lifetime classification,
matching attr.data.type as read by record_allocate. -/
structure attribute_data_t where
  type : allocator_lifetime
deriving DecidableEq

/-- Allocation attribute (dnnl_graph_allocator::attribute_t). -/
structure attribute_t where
  data : attribute_data_t
deriving DecidableEq

/-- Attribute classifying an allocation as persistent. -/
def persistentAttr : attribute_t := ⟨⟨.persistent⟩⟩

/-- Attribute classifying an allocation as temporary. -/
def tempAttr : attribute_t := ⟨⟨.temp⟩⟩

/-- Attribute carrying the reserved output lifetime. -/
def outputAttr : attribute_t := ⟨⟨.output⟩⟩

/-- The five static registries of dnnl_graph_allocator::monitor_t
(allocator.cpp lines 69-87): the persistent totals and entry maps, keyed by
allocator, and the temporary totals, peaks and entry maps, keyed first by
thread id and then by allocator. -/
structure MonitorState where
  persist_mem_ : List (Nat × Nat)
  persist_mem_infos_ : List (Nat × List (Nat × mem_info_t))
  temp_mem_ : List (Nat × List (Nat × Nat))
  peak_temp_mem_ : List (Nat × List (Nat × Nat))
  temp_mem_infos_ : List (Nat × List (Nat × List (Nat × mem_info_t)))
deriving DecidableEq

/-- The process start state: all five registries empty. -/
def emptyMonitor : MonitorState := ⟨[], [], [], [], []⟩

/-- Sum of the recorded sizes of all entries of an entry map. -/
def sumSizes (l : List (Nat × mem_info_t)) : Nat :=
  l.foldr (fun p acc => p.2.size_ + acc) 0

/-- Result of record_allocate: either the updated registries, or the fatal
assertm abort taken on the reserved output lifetime (allocator.cpp line 105).
Modelled from the spec: assertm is declared in utils/utils.hpp, outside this
translation unit; per the design it aborts the process on a false condition
rather than returning. -/
inductive AllocResult where
  | ok (s : MonitorState)
  | fatalAbort
deriving DecidableEq

/-- Result of record_deallocate: either the updated registries, or the
dereference of the end iterator obtained when the address is found in
neither entry map (allocator.cpp lines 120-121), which is undefined
behaviour; the carried state is the one at the point of the dereference. -/
inductive DeallocResult where
  | ok (s : MonitorState)
  | ubEndDeref (s : MonitorState)
deriving DecidableEq

/-- dnnl_graph_allocator::monitor_t::record_allocate (allocator.cpp lines
89-107).  The calling thread identity (std::this_thread::get_id) is passed
explicitly as tid. -/
def record_allocate (tid a buf size : Nat) (attr : attribute_t)
    (s : MonitorState) : AllocResult :=
  match attr.data.type with
  | .persistent =>
      .ok { s with
        persist_mem_ := alSet s.persist_mem_ a
          (addW (alGetD s.persist_mem_ a 0) size),
        persist_mem_infos_ := alSet s.persist_mem_infos_ a
          (alEmplace (alGetD s.persist_mem_infos_ a []) buf
            ⟨size, .persistent⟩) }
  | .temp =>
      let cur := addW (alGetD (alGetD s.temp_mem_ tid []) a 0) size
      let tm := alSet s.temp_mem_ tid (alSet (alGetD s.temp_mem_ tid []) a cur)
      let pk := alGetD (alGetD s.peak_temp_mem_ tid []) a 0
      let pk2 := if pk < cur then cur else pk
      let pm := alSet s.peak_temp_mem_ tid
        (alSet (alGetD s.peak_temp_mem_ tid []) a pk2)
      let ti := alSet s.temp_mem_infos_ tid
        (alSet (alGetD s.temp_mem_infos_ tid []) a
          (alEmplace (alGetD (alGetD s.temp_mem_infos_ tid []) a []) buf
            ⟨size, .temp⟩))
      .ok { s with temp_mem_ := tm, peak_temp_mem_ := pm, temp_mem_infos_ := ti }
  | .output => .fatalAbort

/-- The is_persist test of record_deallocate (allocator.cpp lines 111-113):
some info exactly when persist_mem_infos_ has a map for the allocator and
that map has an entry for the address. -/
def persistFind (s : MonitorState) (a buf : Nat) : Option mem_info_t :=
  match alLookup s.persist_mem_infos_ a with
  | some m => alLookup m buf
  | none => none

/-- dnnl_graph_allocator::monitor_t::record_deallocate (allocator.cpp lines
109-123).  On the temp path, temp_mem_infos_[tid][alloc] materialises empty
inner maps before find is called; when find returns the end iterator the
source dereferences it, modelled by the ubEndDeref result. -/
def record_deallocate (tid a buf : Nat) (s : MonitorState) : DeallocResult :=
  match persistFind s a buf with
  | some info =>
      .ok { s with
        persist_mem_ := alSet s.persist_mem_ a
          (subW (alGetD s.persist_mem_ a 0) info.size_),
        persist_mem_infos_ := alSet s.persist_mem_infos_ a
          (alErase (alGetD s.persist_mem_infos_ a []) buf) }
  | none =>
      let inner := alGetD (alGetD s.temp_mem_infos_ tid []) a []
      let s1 : MonitorState := { s with
        temp_mem_infos_ := alSet s.temp_mem_infos_ tid
          (alSet (alGetD s.temp_mem_infos_ tid []) a inner) }
      match alLookup inner buf with
      | some info =>
          .ok { s1 with
            temp_mem_ := alSet s1.temp_mem_ tid
              (alSet (alGetD s1.temp_mem_ tid []) a
                (subW (alGetD (alGetD s1.temp_mem_ tid []) a 0) info.size_)) }
      | none => .ubEndDeref s1

/-- dnnl_graph_allocator::monitor_t::reset_peak_temp_memory (allocator.cpp
lines 125-131): sets the calling thread peak slot to 0, materialising it. -/
def reset_peak_temp_memory (tid a : Nat) (s : MonitorState) : MonitorState :=
  { s with
    peak_temp_mem_ := alSet s.peak_temp_mem_ tid
      (alSet (alGetD s.peak_temp_mem_ tid []) a 0) }

/-- dnnl_graph_allocator::monitor_t::get_peak_temp_memory (allocator.cpp
lines 133-140): reads peak_temp_mem_.at(tid).at(alloc); a none result models
the out_of_range throw when either at fails. -/
def get_peak_temp_memory (tid a : Nat) (s : MonitorState) : Option Nat :=
  match alLookup s.peak_temp_mem_ tid with
  | some m => alLookup m a
  | none => none

/-- dnnl_graph_allocator::monitor_t::get_total_persist_memory (allocator.cpp
lines 142-150): the recorded total when the allocator has an entry, else 0. -/
def get_total_persist_memory (a : Nat) (s : MonitorState) : Nat :=
  match alLookup s.persist_mem_ a with
  | some v => v
  | none => 0

/-- Current temporary total of a thread and allocator, as stored. -/
def currentOf (s : MonitorState) (tid a : Nat) : Nat :=
  alGetD (alGetD s.temp_mem_ tid []) a 0

/-- Stored temporary peak of a thread and allocator. -/
def peakOf (s : MonitorState) (tid a : Nat) : Nat :=
  alGetD (alGetD s.peak_temp_mem_ tid []) a 0

/-- Temporary entry map of a thread and allocator. -/
def tempEntriesOf (s : MonitorState) (tid a : Nat) : List (Nat × mem_info_t) :=
  alGetD (alGetD s.temp_mem_infos_ tid []) a []

/-- Persistent entry map of an allocator. -/
def persistEntriesOf (s : MonitorState) (a : Nat) : List (Nat × mem_info_t) :=
  alGetD s.persist_mem_infos_ a []

/-- Operations on the process-wide rw_mutex_ (utils::rw_mutex_t). -/
inductive LockEvent where
  | lockWrite
  | unlockWrite
  | lockRead
  | unlockRead
deriving DecidableEq

/-- Sequence of rw_mutex_ operations performed by record_allocate
(allocator.cpp lines 89-107): the body touches the registries directly and
never calls the mutex. -/
def record_allocate_lockEvents : List LockEvent := []

/-- Sequence of rw_mutex_ operations performed by record_deallocate
(allocator.cpp lines 109-123): the body never calls the mutex. -/
def record_deallocate_lockEvents : List LockEvent := []

/-- Sequence of rw_mutex_ operations performed by reset_peak_temp_memory
(allocator.cpp lines 128-130): lock_write, update, unlock_write. -/
def reset_peak_temp_memory_lockEvents : List LockEvent :=
  [.lockWrite, .unlockWrite]

/-- Sequence of rw_mutex_ operations performed by get_peak_temp_memory
(allocator.cpp lines 136-138): lock_read, read, unlock_read. -/
def get_peak_temp_memory_lockEvents : List LockEvent :=
  [.lockRead, .unlockRead]

/-- Sequence of rw_mutex_ operations performed by get_total_persist_memory
(allocator.cpp lines 144-148): lock_read, read, unlock_read. -/
def get_total_persist_memory_lockEvents : List LockEvent :=
  [.lockRead, .unlockRead]

/-- Status codes returned by the boundary operations (status namespace). -/
inductive status_t where
  | success
  | invalid_arguments
  | unimplemented
deriving DecidableEq

/-- A callback slot of the facade: the process-standard routine or a
caller-supplied one, identified by an opaque token. -/
inductive callback_impl where
  | default_impl
  | custom_impl (id : Nat)
deriving DecidableEq

/-- The allocator facade: the pair of capability callbacks bound at
construction. -/
structure allocator_facade where
  malloc_fn : callback_impl
  free_fn : callback_impl
deriving DecidableEq

/-- Modelled from the spec: allocator_t::create() (declared in
interface/allocator.hpp, outside this translation unit) builds the facade
from the process-standard allocate/free pair. -/
def allocator_create_default : allocator_facade := ⟨.default_impl, .default_impl⟩

/-- Modelled from the spec: allocator_t::create(malloc, free) builds the
facade from the supplied callback pair. -/
def allocator_create_with (m f : Nat) : allocator_facade :=
  ⟨.custom_impl m, .custom_impl f⟩

/-- utils::any_null over the two nullable callback pointers. -/
def any_null (m f : Option Nat) : Bool := m.isNone || f.isNone

/-- dnnl_graph_allocator_create (allocator.cpp lines 28-43).  The
cpu_sycl_build flag models the DNNL_GRAPH_CPU_SYCL build gate; callbacks are
nullable function pointers, modelled as Option Nat. -/
def dnnl_graph_allocator_create (cpu_sycl_build : Bool)
    (cpu_malloc cpu_free : Option Nat) : status_t × Option allocator_facade :=
  if cpu_sycl_build then (.invalid_arguments, none)
  else if any_null cpu_malloc cpu_free then
    (.success, some allocator_create_default)
  else
    (.success, some (allocator_create_with (cpu_malloc.getD 0) (cpu_free.getD 0)))

/-- dnnl_graph_sycl_interop_allocator_create (allocator.cpp lines 45-61).
The with_sycl_build flag models the DNNL_GRAPH_WITH_SYCL build gate. -/
def dnnl_graph_sycl_interop_allocator_create (with_sycl_build : Bool)
    (sycl_malloc sycl_free : Option Nat) : status_t × Option allocator_facade :=
  if with_sycl_build then
    if any_null sycl_malloc sycl_free then
      (.success, some allocator_create_default)
    else
      (.success, some (allocator_create_with (sycl_malloc.getD 0) (sycl_free.getD 0)))
  else (.unimplemented, none)

/-- A monitor call together with the identity of the calling thread. -/
inductive MonOp where
  | rec_alloc (tid a buf size : Nat) (attr : attribute_t)
  | rec_dealloc (tid a buf : Nat)
  | rec_reset (tid a : Nat)
deriving DecidableEq

/-- One monitor call as a state transition; none when the call aborts
(output lifetime) or reaches the end-iterator dereference. -/
def step (s : MonitorState) : MonOp → Option MonitorState
  | .rec_alloc tid a buf size attr =>
      match record_allocate tid a buf size attr s with
      | .ok s2 => some s2
      | .fatalAbort => none
  | .rec_dealloc tid a buf =>
      match record_deallocate tid a buf s with
      | .ok s2 => some s2
      | .ubEndDeref _ => none
  | .rec_reset tid a => some (reset_peak_temp_memory tid a s)

/-- Caller-contract check for one call, per the design: a persistent
allocation must use a fresh address for its allocator, and its total must
not overflow size_t; all other calls are unconstrained here. -/
def persistValidB (s : MonitorState) : MonOp → Bool
  | .rec_alloc _ a buf size attr =>
      match attr.data.type with
      | .persistent =>
          (alLookup (alGetD s.persist_mem_infos_ a []) buf).isNone &&
          decide (alGetD s.persist_mem_ a 0 + size < W)
      | _ => true
  | _ => true

/-- Run a sequence of monitor calls from a state, requiring every call to
respect the caller contract and to complete normally. -/
def runValid (s : MonitorState) : List MonOp → Option MonitorState
  | [] => some s
  | op :: ops =>
      if persistValidB s op then
        match step s op with
        | some s2 => runValid s2 ops
        | none => none
      else none

/-- The persistent-registry invariant: for every allocator the stored total
equals the sum of the recorded sizes of its entries, and that sum is below
the size_t modulus. -/
def persistInv (s : MonitorState) : Prop :=
  ∀ a, alGetD s.persist_mem_ a 0 = sumSizes (alGetD s.persist_mem_infos_ a []) ∧
       sumSizes (alGetD s.persist_mem_infos_ a []) < W

/-- State reached by record_deallocate of an unrecorded address from the
empty registries: the operator[] reads have materialised the empty inner
maps for thread 0 and allocator 0 when the end iterator is dereferenced. -/
def c1ub : MonitorState := ⟨[], [], [], [], [(0, [(0, [])])]⟩

/-- Registries after a temporary allocation of size 100 at address 0 by
thread 0 on allocator 0, starting from the empty registries. -/
def c2s1 : MonitorState :=
  ⟨[], [], [(0, [(0, 100)])], [(0, [(0, 100)])],
   [(0, [(0, [(0, ⟨100, .temp⟩)])])]⟩

/-- Registries after the matching record_deallocate: the current total is
back to 0 but the entry map still holds the stale record. -/
def c2s2 : MonitorState :=
  ⟨[], [], [(0, [(0, 0)])], [(0, [(0, 100)])],
   [(0, [(0, [(0, ⟨100, .temp⟩)])])]⟩

/-- Registries after a temporary allocation of size 100 at address 0 by
thread 0 on allocator 0 (same shape as c2s1; used by the reset scenario). -/
def c5s1 : MonitorState :=
  ⟨[], [], [(0, [(0, 100)])], [(0, [(0, 100)])],
   [(0, [(0, [(0, ⟨100, .temp⟩)])])]⟩

/-- A contract-respecting call sequence: two persistent allocations of sizes
100 and 200 on allocator 0, then deallocation of the first address. -/
def c6ops : List MonOp :=
  [.rec_alloc 0 0 10 100 persistentAttr,
   .rec_alloc 0 0 11 200 persistentAttr,
   .rec_dealloc 7 0 10]

/-- The registries produced by running c6ops from the empty registries. -/
def c6state : MonitorState :=
  ⟨[(0, 200)], [(0, [(11, ⟨200, .persistent⟩)])], [], [], []⟩

/-- A state whose allocator 0 already holds a persistent record of size 7 at
address 5, with a matching stored total. -/
def c10s : MonitorState :=
  ⟨[(0, 7)], [(0, [(5, ⟨7, .persistent⟩)])], [], [], []⟩

/-- The size_t modulus is positive. -/
theorem W_pos : 0 < W := by decide

/-- Wrapping addition is plain addition below the modulus. -/
theorem addW_eq_of_lt {a b : Nat} (h : a + b < W) : addW a b = a + b :=
  Nat.mod_eq_of_lt h

/-- Subtracting what was just added returns to the start value for in-range
operands. -/
theorem subW_addW_cancel {a b : Nat} (ha : a < W) (hb : b < W) :
    subW (addW a b) b = a := by
  unfold subW addW
  rw [Nat.mod_eq_of_lt hb, Nat.mod_add_mod]
  have h1 : a + b + (W - b) = a + W := by omega
  rw [h1, Nat.add_mod_right]
  exact Nat.mod_eq_of_lt ha

/-- Wrapping subtraction is plain truncated subtraction for in-range
operands with no underflow. -/
theorem subW_eq_of_le {a b : Nat} (hba : b ≤ a) (ha : a < W) :
    subW a b = a - b := by
  unfold subW
  rw [Nat.mod_eq_of_lt (Nat.lt_of_le_of_lt hba ha)]
  have h1 : a + (W - b) = (a - b) + W := by omega
  rw [h1, Nat.add_mod_right]
  exact Nat.mod_eq_of_lt (by omega)

/-- Looking up the key just stored yields the stored value. -/
theorem alLookup_alSet_self {V : Type} (l : List (Nat × V)) (k : Nat) (v : V) :
    alLookup (alSet l k v) k = some v := by
  induction l with
  | nil => simp [alSet, alLookup]
  | cons hd tl ih =>
      obtain ⟨k2, v2⟩ := hd
      by_cases h : k2 = k
      · simp [alSet, alLookup, h]
      · simp [alSet, alLookup, h, ih]

/-- Storing under one key leaves lookups of other keys unchanged. -/
theorem alLookup_alSet_ne {V : Type} (l : List (Nat × V)) (k k3 : Nat) (v : V)
    (h : k3 ≠ k) : alLookup (alSet l k v) k3 = alLookup l k3 := by
  induction l with
  | nil => simp [alSet, alLookup, Ne.symm h]
  | cons hd tl ih =>
      obtain ⟨k2, v2⟩ := hd
      by_cases hk : k2 = k
      · subst hk
        simp [alSet, alLookup, Ne.symm h]
      · simp [alSet, alLookup, hk, ih]

/-- Default-read of the key just stored yields the stored value. -/
theorem alGetD_alSet_self {V : Type} (l : List (Nat × V)) (k : Nat) (v d : V) :
    alGetD (alSet l k v) k d = v := by
  simp [alGetD, alLookup_alSet_self]

/-- Default-read of another key is unchanged by a store. -/
theorem alGetD_alSet_ne {V : Type} (l : List (Nat × V)) (k k3 : Nat) (v d : V)
    (h : k3 ≠ k) : alGetD (alSet l k v) k3 d = alGetD l k3 d := by
  simp [alGetD, alLookup_alSet_ne _ _ _ _ h]

/-- A successful lookup determines the default-read. -/
theorem alGetD_eq_of_lookup {V : Type} {l : List (Nat × V)} {k : Nat} {v : V}
    (d : V) (h : alLookup l k = some v) : alGetD l k d = v := by
  simp [alGetD, h]

/-- Emplace on an absent key prepends the binding. -/
theorem alEmplace_of_lookup_none {V : Type} {l : List (Nat × V)} {k : Nat}
    (v : V) (h : alLookup l k = none) : alEmplace l k v = (k, v) :: l := by
  simp [alEmplace, h]

/-- Emplace on a present key is a no-op. -/
theorem alEmplace_of_lookup_some {V : Type} {l : List (Nat × V)} {k : Nat}
    {w : V} (v : V) (h : alLookup l k = some w) : alEmplace l k v = l := by
  simp [alEmplace, h]

/-- The sum over an entry map with one more entry. -/
theorem sumSizes_cons (k : Nat) (v : mem_info_t) (l : List (Nat × mem_info_t)) :
    sumSizes ((k, v) :: l) = v.size_ + sumSizes l := rfl

/-- Erasing a found entry removes exactly its size from the sum. -/
theorem sumSizes_alErase {l : List (Nat × mem_info_t)} {k : Nat}
    {v : mem_info_t} (h : alLookup l k = some v) :
    sumSizes (alErase l k) + v.size_ = sumSizes l := by
  induction l with
  | nil => simp [alLookup] at h
  | cons hd tl ih =>
      obtain ⟨k2, v2⟩ := hd
      by_cases hk : k2 = k
      · simp [alLookup, hk] at h
        subst h
        simp [alErase, hk, sumSizes]
        omega
      · simp [alLookup, hk] at h
        have h2 := ih h
        simp [alErase, hk, sumSizes] at h2 ⊢
        omega

/-- The size of a found entry is bounded by the sum over the map. -/
theorem size_le_sumSizes {l : List (Nat × mem_info_t)} {k : Nat}
    {v : mem_info_t} (h : alLookup l k = some v) : v.size_ ≤ sumSizes l := by
  have h2 := sumSizes_alErase h
  omega

/-- The stored persistent total read by get_total_persist_memory is the
default-read of the totals map. -/
theorem get_total_persist_memory_eq_alGetD (a : Nat) (s : MonitorState) :
    get_total_persist_memory a s = alGetD s.persist_mem_ a 0 := by
  unfold get_total_persist_memory alGetD
  cases h : alLookup s.persist_mem_ a <;> simp

/-- Evaluation of record_allocate on a persistent attribute. -/
theorem record_allocate_persistent_eq (tid a buf size : Nat) (s : MonitorState) :
    record_allocate tid a buf size persistentAttr s = AllocResult.ok
      { s with
        persist_mem_ := alSet s.persist_mem_ a
          (addW (alGetD s.persist_mem_ a 0) size),
        persist_mem_infos_ := alSet s.persist_mem_infos_ a
          (alEmplace (alGetD s.persist_mem_infos_ a []) buf
            ⟨size, .persistent⟩) } := rfl

/-- Evaluation of record_allocate on a temporary attribute. -/
theorem record_allocate_temp_eq (tid a buf size : Nat) (s : MonitorState) :
    record_allocate tid a buf size tempAttr s = AllocResult.ok
      { s with
        temp_mem_ := alSet s.temp_mem_ tid
          (alSet (alGetD s.temp_mem_ tid []) a
            (addW (alGetD (alGetD s.temp_mem_ tid []) a 0) size)),
        peak_temp_mem_ := alSet s.peak_temp_mem_ tid
          (alSet (alGetD s.peak_temp_mem_ tid []) a
            (if alGetD (alGetD s.peak_temp_mem_ tid []) a 0 <
                  addW (alGetD (alGetD s.temp_mem_ tid []) a 0) size
             then addW (alGetD (alGetD s.temp_mem_ tid []) a 0) size
             else alGetD (alGetD s.peak_temp_mem_ tid []) a 0)),
        temp_mem_infos_ := alSet s.temp_mem_infos_ tid
          (alSet (alGetD s.temp_mem_infos_ tid []) a
            (alEmplace (alGetD (alGetD s.temp_mem_infos_ tid []) a []) buf
              ⟨size, .temp⟩)) } := rfl

/-- Evaluation of record_deallocate when the address is recorded in the
persistent entry map of the allocator. -/
theorem record_deallocate_persist_eq {s : MonitorState} {a buf : Nat}
    {info : mem_info_t} (tid : Nat) (h : persistFind s a buf = some info) :
    record_deallocate tid a buf s = DeallocResult.ok
      { s with
        persist_mem_ := alSet s.persist_mem_ a
          (subW (alGetD s.persist_mem_ a 0) info.size_),
        persist_mem_infos_ := alSet s.persist_mem_infos_ a
          (alErase (alGetD s.persist_mem_infos_ a []) buf) } := by
  unfold record_deallocate
  rw [h]

/-- The empty registries satisfy the persistent invariant. -/
theorem persistInv_empty : persistInv emptyMonitor := by
  intro a
  exact ⟨rfl, W_pos⟩

/-- One contract-respecting monitor call preserves the persistent invariant. -/
theorem step_persistInv {s s2 : MonitorState} {op : MonOp}
    (hInv : persistInv s) (hv : persistValidB s op = true)
    (hstep : step s op = some s2) : persistInv s2 := by
  cases op with
  | rec_alloc tid a buf size attr =>
      cases hty : attr.data.type with
      | persistent =>
          simp only [persistValidB, hty, Bool.and_eq_true, Option.isNone_iff_eq_none,
            decide_eq_true_eq] at hv
          obtain ⟨hfresh, hov⟩ := hv
          simp only [step, record_allocate, hty] at hstep
          obtain rfl : _ = s2 := Option.some.inj hstep
          intro a2
          by_cases ha : a2 = a
          · subst ha
            obtain ⟨hsum, hlt⟩ := hInv a2
            simp only [alGetD_alSet_self, alEmplace_of_lookup_none _ hfresh,
              sumSizes_cons]
            constructor
            · rw [addW_eq_of_lt (by omega)]
              omega
            · omega
          · simpa only [alGetD_alSet_ne _ _ _ _ _ ha] using hInv a2
      | temp =>
          simp only [step, record_allocate, hty] at hstep
          obtain rfl : _ = s2 := Option.some.inj hstep
          intro a2
          exact hInv a2
      | output =>
          simp only [step, record_allocate, hty] at hstep
          cases hstep
  | rec_dealloc tid a buf =>
      cases hpf : persistFind s a buf with
      | some info =>
          have hm : ∃ m, alLookup s.persist_mem_infos_ a = some m ∧
              alLookup m buf = some info := by
            unfold persistFind at hpf
            cases h2 : alLookup s.persist_mem_infos_ a with
            | none => rw [h2] at hpf; cases hpf
            | some m => rw [h2] at hpf; exact ⟨m, rfl, hpf⟩
          obtain ⟨m, hma, hmb⟩ := hm
          simp only [step, record_deallocate_persist_eq tid hpf] at hstep
          obtain rfl : _ = s2 := Option.some.inj hstep
          intro a2
          by_cases ha : a2 = a
          · subst ha
            obtain ⟨hsum, hlt⟩ := hInv a2
            rw [alGetD_eq_of_lookup _ hma] at hsum hlt ⊢
            have herase := sumSizes_alErase hmb
            simp only [alGetD_alSet_self]
            constructor
            · rw [subW_eq_of_le (by omega) (by omega)]
              omega
            · omega
          · simpa only [alGetD_alSet_ne _ _ _ _ _ ha] using hInv a2
      | none =>
          simp only [step, record_deallocate, hpf] at hstep
          cases hl : alLookup (alGetD (alGetD s.temp_mem_infos_ tid []) a []) buf with
          | some info =>
              simp only [hl] at hstep
              obtain rfl : _ = s2 := Option.some.inj hstep
              intro a2
              exact hInv a2
          | none =>
              simp only [hl] at hstep
              cases hstep
  | rec_reset tid a =>
      simp only [step, reset_peak_temp_memory] at hstep
      obtain rfl : _ = s2 := Option.some.inj hstep
      intro a2
      exact hInv a2

/-- Running a contract-respecting call sequence preserves the persistent
invariant. -/
theorem runValid_persistInv {ops : List MonOp} {s0 s : MonitorState}
    (h0 : persistInv s0) (h : runValid s0 ops = some s) : persistInv s := by
  induction ops generalizing s0 with
  | nil =>
      simp only [runValid, Option.some.injEq] at h
      exact h ▸ h0
  | cons op ops ih =>
      simp only [runValid] at h
      by_cases hvb : persistValidB s0 op = true
      · rw [if_pos hvb] at h
        cases hstep : step s0 op with
        | none => rw [hstep] at h; cases h
        | some s1 =>
            rw [hstep] at h
            exact ih (step_persistInv h0 hvb hstep) h
      · rw [if_neg hvb] at h
        cases h

/-- Claim C1 (code defect): deallocating an address that is recorded in
neither the persistent entry map nor the calling thread temporary entry map
does not produce any reported error; record_deallocate reaches the
dereference of the end iterator returned by find on the temporary entry map
(allocator.cpp lines 120-121), which is undefined behaviour.  Evaluated here
at thread 0, allocator 0, address 0 from the empty registries, the scenario
of a temporary buffer freed by a thread that never allocated it. -/
theorem record_deallocate_unknown_address_is_end_deref :
    record_deallocate 0 0 0 emptyMonitor = DeallocResult.ubEndDeref c1ub := by
  decide

/-- Claim C2 (code defect): deallocating a temporary allocation subtracts
its size from the thread/allocator current total but leaves the address
record in the temporary entry map; after allocating 100 bytes at address 0
and deallocating it on thread 0, the current total is 0 yet the entry map of
thread 0 and allocator 0 still holds the stale record of size 100. -/
theorem record_deallocate_temp_keeps_stale_entry :
    record_allocate 0 0 0 100 tempAttr emptyMonitor = AllocResult.ok c2s1 ∧
    record_deallocate 0 0 0 c2s1 = DeallocResult.ok c2s2 ∧
    currentOf c2s2 0 0 = 0 ∧
    alLookup (tempEntriesOf c2s2 0 0) 0 = some ⟨100, allocator_lifetime.temp⟩ := by
  decide

/-- Claim C3 (counterexample): on a thread/allocator slot that was never
initialised, get_peak_temp_memory does not return 0; the at lookup fails
with a not-found condition (std::out_of_range), modelled by the none
result. -/
theorem get_peak_temp_memory_uninitialized_cex :
    get_peak_temp_memory 0 0 emptyMonitor = none := rfl

/-- Claim C3 (amended): whenever the thread/allocator peak slot has never
been initialised, get_peak_temp_memory fails with the not-found condition of
the at lookup rather than returning 0. -/
theorem get_peak_temp_memory_absent_slot_fails (tid a : Nat) (s : MonitorState)
    (h : ∀ m, alLookup s.peak_temp_mem_ tid = some m → alLookup m a = none) :
    get_peak_temp_memory tid a s = none := by
  unfold get_peak_temp_memory
  cases hm : alLookup s.peak_temp_mem_ tid with
  | none => rfl
  | some m => exact h m hm

/-- Concrete instance of the amended C3 statement at thread 0, allocator 0,
on the empty registries. -/
theorem get_peak_temp_memory_absent_slot_fails_witness :
    get_peak_temp_memory 0 0 emptyMonitor = none :=
  get_peak_temp_memory_absent_slot_fails 0 0 emptyMonitor
    (fun _ hm => Option.noConfusion hm)

/-- Claim C4 (counterexample): the two registry-mutating record operations
acquire no lock at all, so in particular they never take the process-wide
reader/writer lock in exclusive mode. -/
theorem record_ops_take_no_write_lock_cex :
    LockEvent.lockWrite ∉ record_allocate_lockEvents ∧
    LockEvent.lockWrite ∉ record_deallocate_lockEvents := by
  decide

/-- Claim C4 (amended): of the mutating monitor operations only
reset_peak_temp_memory brackets its update in the exclusive lock;
record_allocate and record_deallocate touch the registries with no lock,
and the two read queries take the shared lock. -/
theorem monitor_lock_discipline :
    record_allocate_lockEvents = [] ∧
    record_deallocate_lockEvents = [] ∧
    reset_peak_temp_memory_lockEvents = [LockEvent.lockWrite, LockEvent.unlockWrite] ∧
    get_peak_temp_memory_lockEvents = [LockEvent.lockRead, LockEvent.unlockRead] ∧
    get_total_persist_memory_lockEvents = [LockEvent.lockRead, LockEvent.unlockRead] :=
  ⟨rfl, rfl, rfl, rfl, rfl⟩

/-- Claim C5 (counterexample): after a temporary allocation of 100 bytes
followed by reset_peak_temp_memory on the same thread and allocator, the
stored peak (0) is strictly below the stored current total (100), so the
peak does not dominate the current total at every observation point. -/
theorem peak_below_current_after_reset_cex :
    record_allocate 0 0 0 100 tempAttr emptyMonitor = AllocResult.ok c5s1 ∧
    peakOf (reset_peak_temp_memory 0 0 c5s1) 0 0 <
      currentOf (reset_peak_temp_memory 0 0 c5s1) 0 0 := by
  decide

/-- Claim C5 (amended): every temporary record_allocate leaves the stored
peak at least the stored current total and never decreases the peak, so the
peak dominates the current total and is monotone across temporary
allocations; reset_peak_temp_memory however sets the peak to 0 while
leaving the current total unchanged, so immediately after a reset with a
positive current total the domination fails. -/
theorem temp_peak_dominates_current_until_reset :
    (∀ (s : MonitorState) (tid a buf size : Nat),
      ∃ s2, record_allocate tid a buf size tempAttr s = AllocResult.ok s2 ∧
        currentOf s2 tid a ≤ peakOf s2 tid a ∧
        peakOf s tid a ≤ peakOf s2 tid a) ∧
    (∀ (s : MonitorState) (tid a : Nat),
      peakOf (reset_peak_temp_memory tid a s) tid a = 0 ∧
      currentOf (reset_peak_temp_memory tid a s) tid a = currentOf s tid a) := by
  constructor
  · intro s tid a buf size
    refine ⟨_, record_allocate_temp_eq tid a buf size s, ?_, ?_⟩
    · unfold currentOf peakOf
      dsimp only
      simp only [alGetD_alSet_self]
      split
      · exact Nat.le_refl _
      · exact Nat.le_of_not_lt (by assumption)
    · unfold peakOf
      dsimp only
      simp only [alGetD_alSet_self]
      split
      · exact Nat.le_of_lt (by assumption)
      · exact Nat.le_refl _
  · intro s tid a
    constructor
    · unfold peakOf reset_peak_temp_memory
      dsimp only
      simp only [alGetD_alSet_self]
    · rfl

/-- Claim C9: recording an allocation whose attribute carries the reserved
output lifetime always takes the fatal assertm branch (allocator.cpp line
105); no registry is updated and no ordinary result is produced. -/
theorem record_allocate_output_aborts (tid a buf size : Nat) (s : MonitorState) :
    record_allocate tid a buf size outputAttr s = AllocResult.fatalAbort := rfl

/-- Claim C6: along every call sequence from the empty registries in which
each persistent allocation uses a fresh address and keeps the total below
the size_t modulus (the caller contract of the design), and in which every
call completes normally, the stored persistent total of every allocator
equals the sum of the sizes recorded in its persistent entry map. -/
theorem persist_total_matches_entries (ops : List MonOp) (s : MonitorState)
    (h : runValid emptyMonitor ops = some s) (a : Nat) :
    get_total_persist_memory a s = sumSizes (persistEntriesOf s a) := by
  have hInv := runValid_persistInv persistInv_empty h
  rw [get_total_persist_memory_eq_alGetD]
  exact (hInv a).1

/-- Concrete instance of C6: two persistent allocations and one
deallocation on allocator 0. -/
theorem persist_total_matches_entries_witness :
    runValid emptyMonitor c6ops = some c6state ∧
    get_total_persist_memory 0 c6state = sumSizes (persistEntriesOf c6state 0) :=
  ⟨by decide, persist_total_matches_entries c6ops c6state (by decide) 0⟩

/-- Claim C7: a persistent record_allocate at a fresh address followed by
the matching record_deallocate (from any thread) restores
get_total_persist_memory to exactly its prior value, given the in-range
side conditions of size_t arithmetic. -/
theorem persist_alloc_dealloc_roundtrip (s : MonitorState)
    (tid tid2 a buf size : Nat)
    (hfresh : alLookup (persistEntriesOf s a) buf = none)
    (hsz : size < W) (ht : alGetD s.persist_mem_ a 0 < W) :
    ∃ s1 s2,
      record_allocate tid a buf size persistentAttr s = AllocResult.ok s1 ∧
      record_deallocate tid2 a buf s1 = DeallocResult.ok s2 ∧
      get_total_persist_memory a s2 = get_total_persist_memory a s := by
  have hpf : persistFind
      { s with
        persist_mem_ := alSet s.persist_mem_ a
          (addW (alGetD s.persist_mem_ a 0) size),
        persist_mem_infos_ := alSet s.persist_mem_infos_ a
          (alEmplace (alGetD s.persist_mem_infos_ a []) buf
            ⟨size, .persistent⟩) } a buf
      = some ⟨size, .persistent⟩ := by
    unfold persistEntriesOf at hfresh
    unfold persistFind
    dsimp only
    rw [alLookup_alSet_self, alEmplace_of_lookup_none _ hfresh]
    simp [alLookup]
  refine ⟨_, _, record_allocate_persistent_eq tid a buf size s,
    record_deallocate_persist_eq tid2 hpf, ?_⟩
  rw [get_total_persist_memory_eq_alGetD, get_total_persist_memory_eq_alGetD]
  dsimp only
  rw [alGetD_alSet_self, alGetD_alSet_self]
  exact subW_addW_cancel ht hsz

/-- Concrete instance of C7: allocate 100 persistent bytes at address 5 on
allocator 0 from thread 3, deallocate from thread 4. -/
theorem persist_alloc_dealloc_roundtrip_witness :
    ∃ s1 s2,
      record_allocate 3 0 5 100 persistentAttr emptyMonitor = AllocResult.ok s1 ∧
      record_deallocate 4 0 5 s1 = DeallocResult.ok s2 ∧
      get_total_persist_memory 0 s2 = get_total_persist_memory 0 emptyMonitor :=
  persist_alloc_dealloc_roundtrip emptyMonitor 3 4 0 5 100
    (by decide) (by decide) (by decide)

/-- Claim C8: whenever either callback of a creation call is absent, the
host operation (in a build where it is available) and the sycl interop
operation (in a build with sycl support) both ignore the supplied callbacks,
bind the default pair, and return success. -/
theorem allocator_create_partial_pair_defaults (m f : Option Nat)
    (h : m = none ∨ f = none) :
    dnnl_graph_allocator_create false m f
      = (status_t.success, some allocator_create_default) ∧
    dnnl_graph_sycl_interop_allocator_create true m f
      = (status_t.success, some allocator_create_default) := by
  have han : any_null m f = true := by
    cases h with
    | inl h2 => simp [any_null, h2]
    | inr h2 => simp [any_null, h2]
  constructor
  · simp [dnnl_graph_allocator_create, han]
  · simp [dnnl_graph_sycl_interop_allocator_create, han]

/-- Concrete instance of C8: absent allocate callback, present free
callback. -/
theorem allocator_create_partial_pair_defaults_witness :
    dnnl_graph_allocator_create false none (some 7)
      = (status_t.success, some allocator_create_default) ∧
    dnnl_graph_sycl_interop_allocator_create true none (some 7)
      = (status_t.success, some allocator_create_default) :=
  allocator_create_partial_pair_defaults none (some 7) (Or.inl rfl)

/-- Claim C10: a persistent record_allocate at an address already present in
the persistent entry map of the allocator leaves that entry map unchanged
(emplace is a no-op) while still adding the new size to the stored total;
consequently two persistent allocations at the same address with positive
in-range sizes leave the stored total strictly above the sum of the sizes in
the entry map. -/
theorem persist_duplicate_address_keeps_entry :
    (∀ (s : MonitorState) (tid a buf size : Nat) (info : mem_info_t),
      alLookup (persistEntriesOf s a) buf = some info →
      ∃ s2, record_allocate tid a buf size persistentAttr s = AllocResult.ok s2 ∧
        persistEntriesOf s2 a = persistEntriesOf s a ∧
        alGetD s2.persist_mem_ a 0 = addW (alGetD s.persist_mem_ a 0) size) ∧
    (∀ (size1 size2 tid1 tid2 a buf : Nat),
      0 < size1 → 0 < size2 → size1 + size2 < W →
      ∃ s1 s2,
        record_allocate tid1 a buf size1 persistentAttr emptyMonitor
          = AllocResult.ok s1 ∧
        record_allocate tid2 a buf size2 persistentAttr s1 = AllocResult.ok s2 ∧
        sumSizes (persistEntriesOf s2 a) = size1 ∧
        alGetD s2.persist_mem_ a 0 = size1 + size2 ∧
        sumSizes (persistEntriesOf s2 a) < alGetD s2.persist_mem_ a 0) := by
  have hpart1 : ∀ (s : MonitorState) (tid a buf size : Nat) (info : mem_info_t),
      alLookup (persistEntriesOf s a) buf = some info →
      ∃ s2, record_allocate tid a buf size persistentAttr s = AllocResult.ok s2 ∧
        persistEntriesOf s2 a = persistEntriesOf s a ∧
        alGetD s2.persist_mem_ a 0 = addW (alGetD s.persist_mem_ a 0) size := by
    intro s tid a buf size info hdup
    unfold persistEntriesOf at hdup
    refine ⟨_, record_allocate_persistent_eq tid a buf size s, ?_, ?_⟩
    · unfold persistEntriesOf
      dsimp only
      rw [alGetD_alSet_self, alEmplace_of_lookup_some _ hdup]
    · dsimp only
      rw [alGetD_alSet_self]
  refine ⟨hpart1, ?_⟩
  intro size1 size2 tid1 tid2 a buf h1 h2 hov
  have hok1 := record_allocate_persistent_eq tid1 a buf size1 emptyMonitor
  set s1 : MonitorState := { emptyMonitor with
    persist_mem_ := alSet emptyMonitor.persist_mem_ a
      (addW (alGetD emptyMonitor.persist_mem_ a 0) size1),
    persist_mem_infos_ := alSet emptyMonitor.persist_mem_infos_ a
      (alEmplace (alGetD emptyMonitor.persist_mem_infos_ a []) buf
        ⟨size1, .persistent⟩) } with hs1
  have hdup : alLookup (persistEntriesOf s1 a) buf
      = some ⟨size1, allocator_lifetime.persistent⟩ := by
    rw [hs1]
    simp [persistEntriesOf, emptyMonitor, alGetD, alLookup, alSet, alEmplace]
  obtain ⟨s2, hok2, hentries, htot⟩ :=
    hpart1 s1 tid2 a buf size2 ⟨size1, .persistent⟩ hdup
  have hm1 : addW (alGetD s1.persist_mem_ a 0) size2 = size1 + size2 := by
    rw [hs1]
    simp [emptyMonitor, alGetD, alLookup, alSet, addW]
    exact Nat.mod_eq_of_lt hov
  have hsum : sumSizes (persistEntriesOf s1 a) = size1 := by
    rw [hs1]
    simp [persistEntriesOf, emptyMonitor, alGetD, alLookup, alSet, alEmplace,
      sumSizes]
  refine ⟨s1, s2, hok1, hok2, ?_, ?_, ?_⟩
  · rw [hentries, hsum]
  · rw [htot, hm1]
  · rw [hentries, hsum, htot, hm1]
    omega

/-- Concrete instance of C10: duplicate persistent allocation at address 5,
first on the prepared state c10s, then twice from the empty registries with
sizes 1 and 2. -/
theorem persist_duplicate_address_keeps_entry_witness :
    (∃ s2, record_allocate 0 0 5 3 persistentAttr c10s = AllocResult.ok s2 ∧
      persistEntriesOf s2 0 = persistEntriesOf c10s 0 ∧
      alGetD s2.persist_mem_ 0 0 = addW (alGetD c10s.persist_mem_ 0 0) 3) ∧
    (∃ s1 s2,
      record_allocate 0 0 5 1 persistentAttr emptyMonitor = AllocResult.ok s1 ∧
      record_allocate 0 0 5 2 persistentAttr s1 = AllocResult.ok s2 ∧
      sumSizes (persistEntriesOf s2 0) = 1 ∧
      alGetD s2.persist_mem_ 0 0 = 1 + 2 ∧
      sumSizes (persistEntriesOf s2 0) < alGetD s2.persist_mem_ 0 0) :=
  ⟨persist_duplicate_address_keeps_entry.1 c10s 0 0 5 3
      ⟨7, .persistent⟩ (by decide),
   persist_duplicate_address_keeps_entry.2 1 2 0 0 0 5
      (by decide) (by decide) (by decide)⟩
